import Mathlib

set_option autoImplicit false

namespace Flyt

/-- Values stored in a SharedStore and passed between node phases: a shallow
embedding of the Go interface values the template code actually uses
(nil, strings, integers, slices, and string-keyed maps). -/
inductive Val where
  | VNil : Val
  | VStr (s : String) : Val
  | VInt (n : Int) : Val
  | VList (xs : List Val) : Val
  | VMap (fields : List (String × Val)) : Val
  deriving Inhabited

open Val

/-- Errors a phase can report: ordinary Go errors carry a message,
context cancellation is its own distinguished variant, and Go runtime
panics from failed type assertions are modelled as a third variant. -/
inductive Err where
  | user (msg : String) : Err
  | canceled : Err
  | panicked (msg : String) : Err
  deriving DecidableEq, Repr

/-- Modelled from the spec: the flyt SharedStore (its Go source is not part of
this repository) is a string-keyed map of arbitrary values with Set and a Get
that reports whether the key was found. Concurrency is outside the shallow
embedding; the functional contract is an association list in which Set
prepends a binding and Get finds the most recent one. -/
def SharedStore : Type := List (String × Val)

/-- A fresh, empty SharedStore, as returned by NewSharedStore. -/
def SharedStore.new : SharedStore := []

/-- Modelled from the spec: Set(key, value) binds the key to the value,
shadowing any earlier binding. -/
def SharedStore.set (s : SharedStore) (k : String) (v : Val) : SharedStore :=
  (k, v) :: s

/-- The most recent binding of a key, if any. -/
def SharedStore.lookupVal : SharedStore → String → Option Val
  | [], _ => none
  | (k1, v) :: rest, k => if k1 = k then some v else SharedStore.lookupVal rest k

/-- Modelled from the spec: Get(key) returns the bound value and found=true,
or the zero value (nil) and found=false when the key is absent. -/
def SharedStore.get (s : SharedStore) (k : String) : Val × Bool :=
  match s.lookupVal k with
  | some v => (v, true)
  | none => (VNil, false)

@[simp] theorem lookupVal_set_self (s : SharedStore) (k : String) (v : Val) :
    (s.set k v).lookupVal k = some v := by
  simp [SharedStore.set, SharedStore.lookupVal]

@[simp] theorem lookupVal_set_of_ne (s : SharedStore) (k k1 : String) (v : Val)
    (h : k1 ≠ k) : (s.set k1 v).lookupVal k = s.lookupVal k := by
  simp [SharedStore.set, SharedStore.lookupVal, h]

/-- Actions are the symbolic strings a Post phase returns. -/
abbrev Action := String

/-- The reserved fallthrough action, exposed by the library as DefaultAction. -/
def DefaultAction : Action := "default"

/-- The well-known SharedStore key for a batch input collection. -/
def KeyItems : String := "items"

/-- The well-known SharedStore key for a batch output collection. -/
def KeyResults : String := "results"

/-- Modelled from the spec: a flyt Node (the library's node type is not part
of this repository). Prep and Post may mutate the store, so they return the
updated store alongside their result, matching Go's in-place mutation; Exec
sees only the prep result. Exec takes the attempt index so that distinct
retry attempts may observe distinct outcomes of the external world.
maxRetries is the retry budget beyond the first attempt (spec: Exec runs
1..N times with N = configured max retries + 1). -/
structure Node where
  prep : Option (SharedStore → (Except Err Val) × SharedStore)
  exec : Nat → Val → Except Err Val
  post : Option (SharedStore → Val → Val → (Except Err Action) × SharedStore)
  maxRetries : Nat

/-- The observable outcome of one Node.Run call, with ghost instrumentation:
how often each phase was invoked and whether the Exec phase ultimately
succeeded. -/
structure RunResult where
  action : Action
  store : SharedStore
  err : Option Err
  prepCalls : Nat
  execCalls : Nat
  postCalls : Nat
  execOk : Bool

/-- Modelled from the spec: the retry loop around Exec. cancel i tells
whether the run context is observed canceled while waiting out the delay
after attempt i; after a failed attempt with remaining budget the loop
honors cancellation before starting the next attempt, returning the
distinguished cancellation error. The first argument is the remaining retry
budget, the second the current attempt index; the result is the final Exec
outcome together with the number of Exec invocations performed. -/
def runExecLoop (cancel : Nat → Bool) (ex : Nat → Except Err Val) :
    Nat → Nat → (Except Err Val) × Nat
  | 0, i =>
    match ex i with
    | .ok v => (.ok v, 1)
    | .error e => (.error e, 1)
  | b + 1, i =>
    match ex i with
    | .ok v => (.ok v, 1)
    | .error e =>
      if cancel i then (.error Err.canceled, 1)
      else
        let r := runExecLoop cancel ex b (i + 1)
        (r.1, r.2 + 1)

/-- Modelled from the spec: the Prep phase of Node.Run; an absent Prep yields
nil. Returns the prep outcome, the possibly mutated store, and how many
times Prep was invoked. -/
def prepPhase (n : Node) (s : SharedStore) : (Except Err Val) × SharedStore × Nat :=
  match n.prep with
  | none => (.ok VNil, s, 0)
  | some p =>
    let r := p s
    (r.1, r.2, 1)

/-- Modelled from the spec: Node.Run. Prep runs at most once and aborts the
node on its error with a zero Action; Exec runs under the retry loop; Post
runs at most once, only after a successful Exec, and defaults to
DefaultAction when absent; a Post error keeps the store mutations Post
already made. -/
def Node.run (n : Node) (cancel : Nat → Bool) (s : SharedStore) : RunResult :=
  match prepPhase n s with
  | (.error e, s1, pc) =>
    { action := "", store := s1, err := some e,
      prepCalls := pc, execCalls := 0, postCalls := 0, execOk := false }
  | (.ok pv, s1, pc) =>
    let er := runExecLoop cancel (fun i => n.exec i pv) n.maxRetries 0
    match er.1 with
    | .error e =>
      { action := "", store := s1, err := some e,
        prepCalls := pc, execCalls := er.2, postCalls := 0, execOk := false }
    | .ok ev =>
      match n.post with
      | none =>
        { action := DefaultAction, store := s1, err := none,
          prepCalls := pc, execCalls := er.2, postCalls := 0, execOk := true }
      | some q =>
        match q s1 pv ev with
        | (.ok a, s2) =>
          { action := a, store := s2, err := none,
            prepCalls := pc, execCalls := er.2, postCalls := 1, execOk := true }
        | (.error e, s2) =>
          { action := "", store := s2, err := some e,
            prepCalls := pc, execCalls := er.2, postCalls := 1, execOk := true }

/-- Node identities are names; the template wires nodes by Go pointer
identity, modelled here by distinct names. -/
abbrev NodeId := String

/-- Modelled from the spec: a flyt Flow is a designated start node plus a
routing table from (source node, action) to destination node, built by
Connect calls and fixed during a run. -/
structure Flow where
  start : NodeId
  nodes : NodeId → Node
  routes : List ((NodeId × Action) × NodeId)

/-- One routing-table lookup for an exact (node, action) pair. -/
def findRoute (f : Flow) (cur : NodeId) (a : Action) : Option NodeId :=
  (f.routes.find? (fun r => r.1.1 == cur && r.1.2 == a)).map (fun r => r.2)

/-- Modelled from the spec: routing resolution, exact action first, then the
DefaultAction fallback; no other matching. -/
def resolveNext (f : Flow) (cur : NodeId) (a : Action) : Option NodeId :=
  match findRoute f cur a with
  | some nxt => some nxt
  | none => findRoute f cur DefaultAction

/-- Modelled from the spec: the flow run loop, instrumented with the list of
node identities executed in order. Cycles are legal, so the loop takes fuel;
none means the run was still going after the given number of steps. On a
node error the flow aborts with that error; when no route matches, the flow
terminates normally with no error. -/
def Flow.runFuel (f : Flow) (cancel : Nat → Bool) :
    Nat → NodeId → SharedStore → Option (List NodeId × SharedStore × Option Err)
  | 0, _, _ => none
  | fuel + 1, cur, s =>
    let r := (f.nodes cur).run cancel s
    match r.err with
    | some e => some ([cur], r.store, some e)
    | none =>
      match resolveNext f cur r.action with
      | none => some ([cur], r.store, none)
      | some nxt =>
        match f.runFuel cancel fuel nxt r.store with
        | none => none
        | some t => some (cur :: t.1, t.2.1, t.2.2)

/-- Modelled from the spec: Flow.Run starts the loop at the start node. -/
def Flow.run (f : Flow) (cancel : Nat → Bool) (fuel : Nat) (s : SharedStore) :
    Option (List NodeId × SharedStore × Option Err) :=
  f.runFuel cancel fuel f.start s

/-- Go interface nil test as used by the template code: only nil is nil. -/
def Val.isNil : Val → Bool
  | VNil => true
  | _ => false

/-- Go map indexing for the modelled map values: a missing key yields nil. -/
def mapGet (fields : List (String × Val)) (k : String) : Val :=
  match fields with
  | [] => VNil
  | (k1, v) :: rest => if k1 = k then v else mapGet rest k

/-- Translated from CreateAnalyzeNode in the template's node code: Prep reads
"question" (failing when absent) and "search_results" (ignoring its found
flag); Exec returns the string "search" when the prep map's search_results
entry is nil, else "process"; Post turns the Exec string into the Action. -/
def analyzeNode : Node where
  prep := some (fun s =>
    match s.get "question" with
    | (q, true) =>
      (.ok (VMap [("question", q), ("search_results", (s.get "search_results").1)]), s)
    | (_, false) => (.error (.user "no question found in shared store"), s))
  exec := fun _ pv =>
    match pv with
    | VMap fields =>
      if (mapGet fields "search_results").isNil then .ok (VStr "search")
      else .ok (VStr "process")
    | _ => .error (.panicked "interface conversion: prep result is not a map")
  post := some (fun s _ ev =>
    match ev with
    | VStr a => (.ok a, s)
    | _ => (.error (.panicked "interface conversion: exec result is not a string"), s))
  maxRetries := 0

/-- Translated from CreateSearchNode: Prep reads "question" (failing when
absent); Exec fails on a nil question and otherwise casts it to a string
(a failed cast is a Go panic) and returns the mock results string; Post
stores the results under "search_results" and returns the action
"analyze". -/
def searchNode : Node where
  prep := some (fun s =>
    match s.get "question" with
    | (q, true) => (.ok q, s)
    | (_, false) => (.error (.user "no question found in shared store"), s))
  exec := fun _ pv =>
    match pv with
    | VNil => .error (.user "no question to search for")
    | VStr q => .ok (VStr ("Mock search results for: " ++ q))
    | _ => .error (.panicked "interface conversion: question is not a string")
  post := some (fun s _ ev => (.ok "analyze", s.set "search_results" ev))
  maxRetries := 0

/-- Translated from CreateProcessNode: Prep reads "question" and
"search_results" ignoring their found flags; Exec produces a fixed processed
string; Post stores it under "context" and returns DefaultAction. -/
def processNode : Node where
  prep := some (fun s =>
    (.ok (VMap [("question", (s.get "question").1),
                ("search_results", (s.get "search_results").1)]), s))
  exec := fun _ pv =>
    match pv with
    | VMap _ => .ok (VStr "Processed information from search results")
    | _ => .error (.panicked "interface conversion: prep result is not a map")
  post := some (fun s _ ev => (.ok DefaultAction, s.set "context" ev))
  maxRetries := 0

/-- Translated from CreateAnswerNode, with the OPENAI_API_KEY environment
read modelled as the boolean parameter apiKey. Prep reads "question"
(failing when absent) and "context" (ignoring its found flag); Exec casts
the question to a string (a failed cast is a Go panic), fails when the key
is unset, and otherwise returns the placeholder answer; Post stores the
answer under "answer" and returns DefaultAction. -/
def answerNode (apiKey : Bool) : Node where
  prep := some (fun s =>
    match s.get "question" with
    | (q, true) =>
      (.ok (VMap [("question", q), ("context", (s.get "context").1)]), s)
    | (_, false) => (.error (.user "no question found in shared store"), s))
  exec := fun _ pv =>
    match pv with
    | VMap fields =>
      match mapGet fields "question" with
      | VStr q =>
        if apiKey then .ok (VStr ("This is a placeholder answer for: " ++ q))
        else .error (.user "OPENAI_API_KEY not set")
      | _ => .error (.panicked "interface conversion: question is not a string")
    | _ => .error (.panicked "interface conversion: prep result is not a map")
  post := some (fun s _ ev => (.ok DefaultAction, s.set "answer" ev))
  maxRetries := 0

/-- A node name that is never wired into a flow maps to this placeholder. -/
def dummyNode : Node where
  prep := none
  exec := fun _ _ => .error (.user "unknown node")
  post := none
  maxRetries := 0

/-- The node table of the agent flow, keyed by the names of the four nodes
created in CreateAgentFlow. -/
def agentNodes (apiKey : Bool) : NodeId → Node
  | "analyze" => analyzeNode
  | "search" => searchNode
  | "process" => processNode
  | "answer" => answerNode apiKey
  | _ => dummyNode

/-- Translated from CreateAgentFlow in flow.go: the start node is the analyze
node, and the routing table lists the Connect calls in source order. -/
def agentFlow (apiKey : Bool) : Flow where
  start := "analyze"
  nodes := agentNodes apiKey
  routes :=
    [ (("analyze", "search"), "search"),
      (("analyze", "process"), "process"),
      (("analyze", "answer"), "answer"),
      (("search", "analyze"), "analyze"),
      (("search", "process"), "process"),
      (("process", DefaultAction), "answer") ]

/-- Modelled from the spec: sequential batch processing with an instrumented
trace. Items are processed in order starting at the given index; the trace
records the index of each item actually handed to the per-item function, and
the first item error aborts the batch with that error, producing no output
collection. -/
def seqBatchFrom (f : Val → Except Err Val) :
    List Val → Nat → (Except Err (List Val)) × List Nat
  | [], _ => (.ok [], [])
  | a :: rest, i =>
    match f a with
    | .error e => (.error e, [i])
    | .ok v =>
      let r := seqBatchFrom f rest (i + 1)
      (r.1.map (fun vs => v :: vs), i :: r.2)

/-- Modelled from the spec: the Exec outcome of a sequential BatchNode. -/
def seqBatch (f : Val → Except Err Val) (items : List Val) :
    Except Err (List Val) :=
  (seqBatchFrom f items 0).1

/-- The trace of item indices a sequential BatchNode actually processed. -/
def seqBatchTrace (f : Val → Except Err Val) (items : List Val) : List Nat :=
  (seqBatchFrom f items 0).2

/-- Indexing an input collection, with the Go zero value for out-of-range. -/
def elemAt : List Val → Nat → Val
  | [], _ => VNil
  | v :: _, 0 => v
  | _ :: rest, n + 1 => elemAt rest n

@[simp] theorem elemAt_cons_zero (v : Val) (l : List Val) : elemAt (v :: l) 0 = v := rfl

@[simp] theorem elemAt_cons_succ (v : Val) (l : List Val) (n : Nat) :
    elemAt (v :: l) (n + 1) = elemAt l n := rfl

/-- Reading one pre-allocated result slot. -/
def slotAt : List (Option Val) → Nat → Option Val
  | [], _ => none
  | o :: _, 0 => o
  | _ :: rest, n + 1 => slotAt rest n

/-- Writing one pre-allocated result slot; out-of-range writes are dropped. -/
def setSlot : List (Option Val) → Nat → Option Val → List (Option Val)
  | [], _, _ => []
  | _ :: rest, 0, a => a :: rest
  | o :: rest, n + 1, a => o :: setSlot rest n a

/-- Modelled from the spec: the slot-filling step of a concurrent BatchNode.
Each worker writes its result into the pre-allocated slot of its input
index; the list argument gives the input indices in the order the workers
complete. The first error stops the collection with that error. -/
def fillSlots (f : Val → Except Err Val) (items : List Val) :
    List Nat → List (Option Val) → (List (Option Val)) × Option Err
  | [], slots => (slots, none)
  | i :: rest, slots =>
    match f (elemAt items i) with
    | .error e => (slots, some e)
    | .ok v => fillSlots f items rest (setSlot slots i (some v))

/-- Modelled from the spec: the Exec outcome of a concurrent BatchNode whose
workers complete in the given order; result slots are pre-allocated per
input index, so the output preserves input order. -/
def concBatch (f : Val → Except Err Val) (items : List Val) (order : List Nat) :
    Except Err (List Val) :=
  let r := fillSlots f items order (List.replicate items.length none)
  match r.2 with
  | some e => .error e
  | none => .ok (r.1.map (fun o => o.getD VNil))

/-- Modelled from the spec: a sequential BatchNode over the well-known store
keys. Prep reads the input collection from KeyItems, Exec runs the
sequential batch over the per-item function, and Post commits the output
collection to KeyResults. -/
def mkSeqBatchNode (f : Val → Except Err Val) : Node where
  prep := some (fun s =>
    match s.get KeyItems with
    | (VList items, true) => (.ok (VList items), s)
    | _ => (.error (.user "no items found"), s))
  exec := fun _ pv =>
    match pv with
    | VList items => (seqBatch f items).map VList
    | _ => .error (.panicked "interface conversion: items is not a list")
  post := some (fun s _ ev => (.ok DefaultAction, s.set KeyResults ev))
  maxRetries := 0

/-- A store built by a sequence of Set operations starting from the empty
store; this is how every reachable SharedStore arises. -/
def applySets (ops : List (String × Val)) : SharedStore :=
  ops.foldl (fun (s : SharedStore) p => s.set p.1 p.2) SharedStore.new

/-- Witness fixture: a node whose Prep always fails. -/
def wPrepFailNode : Node where
  prep := some (fun s => (.error (.user "missing input"), s))
  exec := fun _ _ => .ok Val.VNil
  post := none
  maxRetries := 2

/-- Witness fixture: a node whose Exec always fails. -/
def wFailNode : Node where
  prep := none
  exec := fun _ _ => .error (.user "boom")
  post := none
  maxRetries := 0

/-- Witness fixture: a one-node flow around the always-failing node. -/
def wFailFlow : Flow where
  start := "f"
  nodes := fun _ => wFailNode
  routes := []

/-- Witness fixture: a node that succeeds and writes a value to the store. -/
def wWriteNode : Node where
  prep := none
  exec := fun _ _ => .ok (Val.VStr "x")
  post := some (fun s _ ev => (.ok DefaultAction, s.set "v" ev))
  maxRetries := 0

/-- Witness fixture: a one-node flow with an empty routing table around the
writing node, so its run terminates after the single node. -/
def wWriteFlow : Flow where
  start := "w"
  nodes := fun _ => wWriteNode
  routes := []

theorem lookupVal_applySets_extend (ops : List (String × Val)) (s : SharedStore)
    (k : String) (h : ∀ p ∈ ops, p.1 ≠ k) :
    (ops.foldl (fun (t : SharedStore) p => t.set p.1 p.2) s).lookupVal k
      = s.lookupVal k := by
  induction ops generalizing s with
  | nil => rfl
  | cons p rest ih =>
    simp only [List.foldl_cons]
    rw [ih _ (fun q hq => h q (List.mem_cons_of_mem _ hq))]
    exact lookupVal_set_of_ne s k p.1 p.2 (h p (List.mem_cons_self _ _))

/-- C8: on every SharedStore reachable by Set operations, Get on a key that
was never Set returns found=false with the nil value; and on any store, Set
of a key followed immediately by Get of that key returns exactly the value
set, with found=true. -/
theorem sharedStore_get_set_contract :
    (∀ (ops : List (String × Val)) (k : String),
        (∀ p ∈ ops, p.1 ≠ k) → (applySets ops).get k = (Val.VNil, false))
    ∧ ∀ (s : SharedStore) (k : String) (v : Val), (s.set k v).get k = (v, true) := by
  constructor
  · intro ops k h
    have hl : (applySets ops).lookupVal k = none :=
      lookupVal_applySets_extend ops SharedStore.new k h
    simp [SharedStore.get, hl]
  · intro s k v
    simp [SharedStore.get]

/-- Closed witness for C8 at concrete stores and keys. -/
theorem sharedStore_get_set_contract_witness :
    (applySets [("a", Val.VInt 1), ("b", Val.VInt 2)]).get "c" = (Val.VNil, false)
    ∧ (SharedStore.new.set "c" (Val.VInt 3)).get "c" = (Val.VInt 3, true) :=
  ⟨sharedStore_get_set_contract.1 [("a", Val.VInt 1), ("b", Val.VInt 2)] "c"
      (by intro p hp; fin_cases hp <;> simp),
    sharedStore_get_set_contract.2 SharedStore.new "c" (Val.VInt 3)⟩

/-- C4: when a Node's Prep fails, Node.Run returns the zero Action together
with that Prep error, Exec is invoked zero times, and Post is not invoked. -/
theorem prep_error_aborts (n : Node) (cancel : Nat → Bool) (s s1 : SharedStore)
    (p : SharedStore → (Except Err Val) × SharedStore) (e : Err)
    (hp : n.prep = some p) (hps : p s = (.error e, s1)) :
    n.run cancel s = ⟨"", s1, some e, 1, 0, 0, false⟩ := by
  simp [Node.run, prepPhase, hp, hps]

/-- Closed witness for C4 on a concrete node with a failing Prep. -/
theorem prep_error_aborts_witness :
    wPrepFailNode.run (fun _ => false) SharedStore.new
      = ⟨"", SharedStore.new, some (.user "missing input"), 1, 0, 0, false⟩ :=
  prep_error_aborts wPrepFailNode (fun _ => false) SharedStore.new SharedStore.new
    (fun s => (.error (.user "missing input"), s)) (.user "missing input") rfl rfl

/-- C6: if the current node's Run returns an error, the flow run immediately
returns that same error and executes no node beyond the current one. -/
theorem node_error_aborts_flow (f : Flow) (cancel : Nat → Bool) (fuel : Nat)
    (cur : NodeId) (s : SharedStore) (e : Err)
    (herr : ((f.nodes cur).run cancel s).err = some e) :
    f.runFuel cancel (fuel + 1) cur s
      = some ([cur], ((f.nodes cur).run cancel s).store, some e) := by
  simp [Flow.runFuel, herr]

/-- Closed witness for C6 on a one-node flow whose node fails. -/
theorem node_error_aborts_flow_witness :
    wFailFlow.runFuel (fun _ => false) 3 "f" SharedStore.new
      = some (["f"], SharedStore.new, some (.user "boom")) :=
  node_error_aborts_flow wFailFlow (fun _ => false) 2 "f" SharedStore.new
    (.user "boom") rfl

/-- C1: after a node returns an Action, the next node is resolved by the
exact (node, action) routing entry first and the (node, DefaultAction)
entry as fallback, with no other matching; if neither entry exists, the
flow run returns with no error and with exactly the store the node's run
produced, so the current node's writes are preserved. -/
theorem flow_no_route_terminates (f : Flow) (cancel : Nat → Bool) (fuel : Nat)
    (cur : NodeId) (s : SharedStore)
    (hok : ((f.nodes cur).run cancel s).err = none)
    (hnr : resolveNext f cur ((f.nodes cur).run cancel s).action = none) :
    f.runFuel cancel (fuel + 1) cur s
      = some ([cur], ((f.nodes cur).run cancel s).store, none)
    ∧ ∀ (nid : NodeId) (a : Action),
        resolveNext f nid a
          = match findRoute f nid a with
            | some nxt => some nxt
            | none => findRoute f nid DefaultAction := by
  refine ⟨?_, fun nid a => rfl⟩
  simp [Flow.runFuel, hok, hnr]

/-- Closed witness for C1 on a one-node flow with an empty routing table:
the run terminates without error and the store keeps the node's write. -/
theorem flow_no_route_terminates_witness :
    wWriteFlow.runFuel (fun _ => false) 5 "w" SharedStore.new
      = some (["w"], SharedStore.new.set "v" (Val.VStr "x"), none) :=
  (flow_no_route_terminates wWriteFlow (fun _ => false) 4 "w" SharedStore.new
    rfl rfl).1

theorem runExecLoop_count_le (cancel : Nat → Bool) (ex : Nat → Except Err Val) :
    ∀ (b i : Nat), (runExecLoop cancel ex b i).2 ≤ b + 1 := by
  intro b
  induction b with
  | zero => intro i; cases hex : ex i <;> simp [runExecLoop, hex]
  | succ b ih =>
    intro i
    cases hex : ex i with
    | ok v => simp [runExecLoop, hex]
    | error e =>
      by_cases hc : cancel i
      · simp [runExecLoop, hex, hc]
      · have hr := ih (i + 1)
        simp only [runExecLoop, hex, hc]
        simp only [Bool.false_eq_true, if_false]
        omega

theorem runExecLoop_first_ok (cancel : Nat → Bool) (ex : Nat → Except Err Val)
    (b i : Nat) (v : Val) (hex : ex i = .ok v) :
    runExecLoop cancel ex b i = (.ok v, 1) := by
  cases b <;> simp [runExecLoop, hex]

theorem prepPhase_calls_le (n : Node) (s : SharedStore) :
    (prepPhase n s).2.2 ≤ 1 := by
  cases hp : n.prep <;> simp [prepPhase, hp]

/-- C2: with retry budget maxRetries = N, one Node.Run call invokes Exec at
most N+1 times and exactly once when the first Exec attempt succeeds; Prep
is invoked at most once, Post at most once, and Post only when the Exec
phase ultimately succeeded. -/
theorem retry_attempt_discipline (n : Node) (cancel : Nat → Bool) (s : SharedStore) :
    (n.run cancel s).execCalls ≤ n.maxRetries + 1
    ∧ (n.run cancel s).prepCalls ≤ 1
    ∧ (n.run cancel s).postCalls ≤ 1
    ∧ ((n.run cancel s).postCalls = 1 → (n.run cancel s).execOk = true)
    ∧ (∀ (pv : Val) (s1 : SharedStore) (pc : Nat) (v : Val),
        prepPhase n s = (.ok pv, s1, pc) → n.exec 0 pv = .ok v →
        (n.run cancel s).execCalls = 1) := by
  have hpc := prepPhase_calls_le n s
  rcases hp : prepPhase n s with ⟨pr, s1, pc⟩
  rw [hp] at hpc
  simp only at hpc
  cases pr with
  | error e =>
    refine ⟨?_, ?_, ?_, ?_, ?_⟩ <;>
      simp only [Node.run, hp] <;>
      first
        | omega
        | exact hpc
        | simp
  | ok pv =>
    have hcnt := runExecLoop_count_le cancel (fun i => n.exec i pv) n.maxRetries 0
    refine ⟨?_, ?_, ?_, ?_, ?_⟩
    · simp only [Node.run, hp]
      rcases her : runExecLoop cancel (fun i => n.exec i pv) n.maxRetries 0 with ⟨r, cnt⟩
      rw [her] at hcnt
      cases r with
      | error e => simpa using hcnt
      | ok ev =>
        cases hq : n.post with
        | none => simpa using hcnt
        | some q =>
          rcases hqs : q s1 pv ev with ⟨qa, s2⟩
          cases qa <;> simp [hqs] <;> simpa using hcnt
    · simp only [Node.run, hp]
      rcases her : runExecLoop cancel (fun i => n.exec i pv) n.maxRetries 0 with ⟨r, cnt⟩
      cases r with
      | error e => simpa using hpc
      | ok ev =>
        cases hq : n.post with
        | none => simpa using hpc
        | some q =>
          rcases hqs : q s1 pv ev with ⟨qa, s2⟩
          cases qa <;> simp [hqs] <;> simpa using hpc
    · simp only [Node.run, hp]
      rcases her : runExecLoop cancel (fun i => n.exec i pv) n.maxRetries 0 with ⟨r, cnt⟩
      cases r with
      | error e => simp
      | ok ev =>
        cases hq : n.post with
        | none => simp
        | some q =>
          rcases hqs : q s1 pv ev with ⟨qa, s2⟩
          cases qa <;> simp [hqs]
    · simp only [Node.run, hp]
      rcases her : runExecLoop cancel (fun i => n.exec i pv) n.maxRetries 0 with ⟨r, cnt⟩
      cases r with
      | error e => simp
      | ok ev =>
        cases hq : n.post with
        | none => simp
        | some q =>
          rcases hqs : q s1 pv ev with ⟨qa, s2⟩
          cases qa <;> simp [hqs]
    · intro pv2 s1a pca v hpeq hv
      injection hpeq with h1 h2
      injection h1 with h1
      subst h1
      clear h2
      have hfirst : runExecLoop cancel (fun i => n.exec i pv) n.maxRetries 0 = (.ok v, 1) :=
        runExecLoop_first_ok cancel (fun i => n.exec i pv) n.maxRetries 0 v hv
      simp only [Node.run, hp, hfirst]
      cases hq : n.post with
      | none => simp
      | some q =>
        rcases hqs : q s1 pv v with ⟨qa, s2⟩
        cases qa <;> simp [hqs]

/-- Closed witness for C2 on a node whose first Exec attempt succeeds. -/
theorem retry_attempt_discipline_witness :
    (wWriteNode.run (fun _ => false) SharedStore.new).execCalls ≤ 1
    ∧ (wWriteNode.run (fun _ => false) SharedStore.new).prepCalls ≤ 1
    ∧ (wWriteNode.run (fun _ => false) SharedStore.new).postCalls ≤ 1
    ∧ ((wWriteNode.run (fun _ => false) SharedStore.new).postCalls = 1 →
        (wWriteNode.run (fun _ => false) SharedStore.new).execOk = true)
    ∧ (wWriteNode.run (fun _ => false) SharedStore.new).execCalls = 1 := by
  have h := retry_attempt_discipline wWriteNode (fun _ => false) SharedStore.new
  exact ⟨h.1, h.2.1, h.2.2.1, h.2.2.2.1,
    h.2.2.2.2 Val.VNil SharedStore.new 0 (Val.VStr "x") rfl rfl⟩

theorem runExecLoop_cancel_between (cancel : Nat → Bool) (ex : Nat → Except Err Val) :
    ∀ (j b i : Nat), j < b →
    (∀ d, d ≤ j → ∃ e, ex (i + d) = .error e) →
    (∀ d, d < j → cancel (i + d) = false) →
    cancel (i + j) = true →
    runExecLoop cancel ex b i = (.error Err.canceled, j + 1) := by
  intro j
  induction j with
  | zero =>
    intro b i hb hfail _ hc
    obtain ⟨b1, rfl⟩ : ∃ b1, b = b1 + 1 := ⟨b - 1, by omega⟩
    obtain ⟨e, he⟩ := hfail 0 (Nat.le_refl 0)
    rw [Nat.add_zero] at he hc
    simp [runExecLoop, he, hc]
  | succ j ih =>
    intro b i hb hfail hnc hc
    obtain ⟨b1, rfl⟩ : ∃ b1, b = b1 + 1 := ⟨b - 1, by omega⟩
    obtain ⟨e, he⟩ := hfail 0 (Nat.zero_le _)
    rw [Nat.add_zero] at he
    have hc0 : cancel i = false := by
      have := hnc 0 (Nat.succ_pos j)
      rwa [Nat.add_zero] at this
    have hrec : runExecLoop cancel ex b1 (i + 1) = (.error Err.canceled, j + 1) := by
      refine ih b1 (i + 1) (by omega) ?_ ?_ ?_
      · intro d hd
        have := hfail (d + 1) (by omega)
        rwa [show i + (d + 1) = i + 1 + d by omega] at this
      · intro d hd
        have := hnc (d + 1) (by omega)
        rwa [show i + (d + 1) = i + 1 + d by omega] at this
      · rwa [show i + (j + 1) = i + 1 + j by omega] at hc
    simp [runExecLoop, he, hc0, hrec]

/-- C5: if every Exec attempt up to j fails, the context is first observed
canceled in the wait after attempt j, and retry budget remains, then
Node.Run returns the distinguished cancellation error having invoked Exec
exactly j+1 times: no attempt is started after the cancellation, and Post
never runs. -/
theorem cancel_between_retries (n : Node) (cancel : Nat → Bool) (s : SharedStore)
    (pv : Val) (s1 : SharedStore) (pc j : Nat)
    (hp : prepPhase n s = (.ok pv, s1, pc))
    (hbudget : j < n.maxRetries)
    (hfail : ∀ i, i ≤ j → ∃ e, n.exec i pv = .error e)
    (hnc : ∀ i, i < j → cancel i = false)
    (hc : cancel j = true) :
    (n.run cancel s).err = some Err.canceled
    ∧ (n.run cancel s).execCalls = j + 1
    ∧ (n.run cancel s).postCalls = 0 := by
  have hloop : runExecLoop cancel (fun i => n.exec i pv) n.maxRetries 0
      = (.error Err.canceled, j + 1) := by
    refine runExecLoop_cancel_between cancel (fun i => n.exec i pv) j n.maxRetries 0
      hbudget ?_ ?_ ?_
    · intro d hd; simpa using hfail d hd
    · intro d hd; simpa using hnc d hd
    · simpa using hc
  simp [Node.run, hp, hloop]

/-- Witness fixture: a node with retry budget 3 whose Exec always fails. -/
def wCancelNode : Node where
  prep := none
  exec := fun _ _ => .error (.user "transient failure")
  post := none
  maxRetries := 3

/-- Closed witness for C5: the context becomes canceled during the wait
after the second attempt, so the node stops after two Exec calls even
though budget remains. -/
theorem cancel_between_retries_witness :
    (wCancelNode.run (fun i => i != 0) SharedStore.new).err = some Err.canceled
    ∧ (wCancelNode.run (fun i => i != 0) SharedStore.new).execCalls = 2
    ∧ (wCancelNode.run (fun i => i != 0) SharedStore.new).postCalls = 0 :=
  cancel_between_retries wCancelNode (fun i => i != 0) SharedStore.new
    Val.VNil SharedStore.new 0 1 rfl (by decide)
    (fun i _ => ⟨.user "transient failure", rfl⟩)
    (fun i hi => by have : i = 0 := by omega
                    subst this
                    rfl)
    rfl

theorem range_shift (k i0 : Nat) :
    i0 :: (List.range (k + 1)).map (fun d => d + (i0 + 1))
      = (List.range (k + 2)).map (fun d => d + i0) := by
  show i0 :: (List.range (k + 1)).map (fun d => d + (i0 + 1))
      = (List.range ((k + 1) + 1)).map (fun d => d + i0)
  conv_rhs => rw [List.range_succ_eq_map]
  simp only [List.map_cons, List.map_map, Nat.zero_add]
  have hfun : ((fun d => d + i0) ∘ Nat.succ) = fun d => d + (i0 + 1) := by
    funext d
    simp only [Function.comp_apply]
    omega
  rw [hfun]

theorem seqBatchFrom_fail_at (f : Val → Except Err Val) (e : Err) :
    ∀ (items : List Val) (k i0 : Nat), k < items.length →
    (∀ d, d < k → ∃ v, f (elemAt items d) = .ok v) →
    f (elemAt items k) = .error e →
    seqBatchFrom f items i0 = (.error e, (List.range (k + 1)).map (fun d => d + i0)) := by
  intro items
  induction items with
  | nil => intro k i0 hk _ _; simp at hk
  | cons a rest ih =>
    intro k i0 hk hok herr
    cases k with
    | zero =>
      rw [elemAt_cons_zero] at herr
      simp [seqBatchFrom, herr, List.range_succ]
    | succ k =>
      obtain ⟨v, hv⟩ := hok 0 (Nat.succ_pos k)
      rw [elemAt_cons_zero] at hv
      rw [elemAt_cons_succ] at herr
      have hrec := ih k (i0 + 1) (by simpa using hk)
        (fun d hd => by
          have hd2 := hok (d + 1) (by omega)
          rwa [elemAt_cons_succ] at hd2)
        herr
      simp only [seqBatchFrom, hv, hrec]
      refine Prod.ext ?_ ?_
      · simp [Except.map]
      · simpa using range_shift k i0

/-- C7: a sequential BatchNode walks the items in order 0,1,...; when the
per-item function first fails at item k, exactly items 0..k are processed
and none after, the batch Exec error is item k's error, and the BatchNode's
run ends with that error, an unchanged store, and no Post call: no output
collection is committed. -/
theorem seq_batch_fail_fast (f : Val → Except Err Val) (items : List Val)
    (cancel : Nat → Bool) (s : SharedStore) (k : Nat) (e : Err)
    (hk : k < items.length)
    (hok : ∀ d, d < k → ∃ v, f (elemAt items d) = .ok v)
    (herr : f (elemAt items k) = .error e)
    (hstore : s.lookupVal KeyItems = some (VList items)) :
    seqBatch f items = .error e
    ∧ seqBatchTrace f items = List.range (k + 1)
    ∧ ((mkSeqBatchNode f).run cancel s).err = some e
    ∧ ((mkSeqBatchNode f).run cancel s).store = s
    ∧ ((mkSeqBatchNode f).run cancel s).postCalls = 0 := by
  have hmain := seqBatchFrom_fail_at f e items k 0 hk hok herr
  have h1 : seqBatch f items = .error e := by simp [seqBatch, hmain]
  have h2 : seqBatchTrace f items = List.range (k + 1) := by
    simp [seqBatchTrace, hmain]
  refine ⟨h1, h2, ?_, ?_, ?_⟩ <;>
    simp [Node.run, prepPhase, mkSeqBatchNode, SharedStore.get, hstore,
      runExecLoop, h1, Except.map]

/-- Witness fixture: a per-item function that fails on the integer zero. -/
def wItemFunc : Val → Except Err Val
  | VInt 0 => .error (.user "item failed")
  | v => .ok v

/-- Closed witness for C7: the middle item fails, the first is processed,
the last is not, and the store keeps only the input collection. -/
theorem seq_batch_fail_fast_witness :
    seqBatch wItemFunc [VInt 1, VInt 0, VInt 2] = .error (.user "item failed")
    ∧ seqBatchTrace wItemFunc [VInt 1, VInt 0, VInt 2] = [0, 1]
    ∧ ((mkSeqBatchNode wItemFunc).run (fun _ => false)
        (SharedStore.new.set KeyItems (VList [VInt 1, VInt 0, VInt 2]))).err
        = some (.user "item failed")
    ∧ ((mkSeqBatchNode wItemFunc).run (fun _ => false)
        (SharedStore.new.set KeyItems (VList [VInt 1, VInt 0, VInt 2]))).store
        = SharedStore.new.set KeyItems (VList [VInt 1, VInt 0, VInt 2])
    ∧ ((mkSeqBatchNode wItemFunc).run (fun _ => false)
        (SharedStore.new.set KeyItems (VList [VInt 1, VInt 0, VInt 2]))).postCalls = 0 := by
  have h := seq_batch_fail_fast wItemFunc [VInt 1, VInt 0, VInt 2] (fun _ => false)
    (SharedStore.new.set KeyItems (VList [VInt 1, VInt 0, VInt 2])) 1 (.user "item failed")
    (by simp)
    (fun d hd => by interval_cases d; exact ⟨VInt 1, rfl⟩)
    rfl rfl
  exact ⟨h.1, by rw [h.2.1]; rfl, h.2.2.1, h.2.2.2.1, h.2.2.2.2⟩

/-- The success payload of an Exec outcome, if any. -/
def okPart : Except Err Val → Option Val
  | .ok v => some v
  | .error _ => none

theorem length_setSlot : ∀ (l : List (Option Val)) (i : Nat) (a : Option Val),
    (setSlot l i a).length = l.length
  | [], _, _ => rfl
  | _ :: _, 0, _ => rfl
  | _ :: rest, i + 1, a => congrArg (· + 1) (length_setSlot rest i a)

theorem slotAt_setSlot_self : ∀ (l : List (Option Val)) (i : Nat) (a : Option Val),
    i < l.length → slotAt (setSlot l i a) i = a
  | [], _, _, h => absurd h (by simp)
  | _ :: _, 0, _, _ => rfl
  | _ :: rest, i + 1, a, h =>
    slotAt_setSlot_self rest i a (by simp only [List.length_cons] at h; omega)

theorem slotAt_setSlot_ne : ∀ (l : List (Option Val)) (i j : Nat) (a : Option Val),
    i ≠ j → slotAt (setSlot l i a) j = slotAt l j
  | [], _, _, _, _ => rfl
  | _ :: _, 0, 0, _, h => absurd rfl h
  | _ :: _, 0, _ + 1, _, _ => rfl
  | _ :: _, _ + 1, 0, _, _ => rfl
  | _ :: rest, i + 1, j + 1, a, h => slotAt_setSlot_ne rest i j a (fun hh => h (by omega))

theorem elemAt_map_getD : ∀ (l : List (Option Val)) (i : Nat),
    elemAt (l.map (fun o => o.getD VNil)) i = (slotAt l i).getD VNil
  | [], _ => rfl
  | _ :: _, 0 => rfl
  | _ :: rest, i + 1 => elemAt_map_getD rest i

theorem fillSlots_all_ok (f : Val → Except Err Val) (items : List Val) :
    ∀ (order : List Nat) (slots : List (Option Val)),
    (∀ i, i ∈ order → i < slots.length) →
    (∀ i, i ∈ order → ∃ v, f (elemAt items i) = .ok v) →
    (fillSlots f items order slots).2 = none
    ∧ (fillSlots f items order slots).1.length = slots.length
    ∧ ∀ j, slotAt (fillSlots f items order slots).1 j
        = if j ∈ order then okPart (f (elemAt items j)) else slotAt slots j := by
  intro order
  induction order with
  | nil =>
    intro slots _ _
    exact ⟨rfl, rfl, fun j => by simp [fillSlots]⟩
  | cons i rest ih =>
    intro slots hlen hok
    obtain ⟨v, hv⟩ := hok i (List.mem_cons_self i rest)
    have hstep : fillSlots f items (i :: rest) slots
        = fillSlots f items rest (setSlot slots i (some v)) := by
      simp only [fillSlots]
      rw [hv]
    have hrec := ih (setSlot slots i (some v))
      (fun i2 h2 => by
        rw [length_setSlot]
        exact hlen i2 (List.mem_cons_of_mem _ h2))
      (fun i2 h2 => hok i2 (List.mem_cons_of_mem _ h2))
    refine ⟨by rw [hstep]; exact hrec.1,
      by rw [hstep, hrec.2.1, length_setSlot], ?_⟩
    intro j
    rw [hstep, hrec.2.2 j]
    by_cases hjr : j ∈ rest
    · rw [if_pos hjr, if_pos (List.mem_cons_of_mem _ hjr)]
    · rw [if_neg hjr]
      by_cases hji : j = i
      · subst hji
        rw [if_pos (List.mem_cons_self j rest),
          slotAt_setSlot_self slots j (some v) (hlen j (List.mem_cons_self j rest)),
          hv]
        rfl
      · have hnm : ¬ j ∈ i :: rest := by
          simp only [List.mem_cons]
          push_neg
          exact ⟨hji, hjr⟩
        rw [if_neg hnm, slotAt_setSlot_ne slots i j (some v) (fun hh => hji hh.symm)]

/-- C3: a concurrent BatchNode whose workers complete in an arbitrary order
covering the input indices, with every per-item call succeeding, produces an
output collection of the same length as the input whose element at index i
is the per-item result for input index i, for every i. -/
theorem conc_batch_preserves_order (f : Val → Except Err Val) (items : List Val)
    (order : List Nat)
    (hcover : ∀ j, j ∈ order ↔ j < items.length)
    (hok : ∀ i, i < items.length → ∃ v, f (elemAt items i) = .ok v) :
    ∃ out, concBatch f items order = .ok out
      ∧ out.length = items.length
      ∧ ∀ i, i < items.length → f (elemAt items i) = .ok (elemAt out i) := by
  obtain ⟨he, hlen, hj⟩ := fillSlots_all_ok f items order (List.replicate items.length none)
    (fun i hi => by simpa using (hcover i).1 hi)
    (fun i hi => hok i ((hcover i).1 hi))
  refine ⟨(fillSlots f items order (List.replicate items.length none)).1.map
      (fun o => o.getD VNil), ?_, ?_, ?_⟩
  · rcases hres : fillSlots f items order (List.replicate items.length none) with ⟨slots, err2⟩
    rw [hres] at he
    simp only at he
    subst he
    simp [concBatch, hres]
  · rw [List.length_map, hlen, List.length_replicate]
  · intro i hi
    have hji := hj i
    rw [if_pos ((hcover i).2 hi)] at hji
    obtain ⟨v, hv⟩ := hok i hi
    rw [elemAt_map_getD, hji, hv]
    rfl

/-- Translated from CreateBatchProcessNode's per-item function: cast the
item to a string (a failed cast is a Go panic) and prefix it with
"Processed: ". -/
def batchProcessFunc : Val → Except Err Val
  | VStr str => .ok (VStr ("Processed: " ++ str))
  | _ => .error (.panicked "interface conversion: item is not a string")

/-- Closed witness for C3: three items, workers completing in the scrambled
order 2, 0, 1, still yield the in-order output. -/
theorem conc_batch_preserves_order_witness :
    ∃ out, concBatch batchProcessFunc [VStr "a", VStr "b", VStr "c"] [2, 0, 1] = .ok out
      ∧ out.length = 3
      ∧ ∀ i, i < 3 → batchProcessFunc (elemAt [VStr "a", VStr "b", VStr "c"] i)
          = .ok (elemAt out i) := by
  have h := conc_batch_preserves_order batchProcessFunc
    [VStr "a", VStr "b", VStr "c"] [2, 0, 1]
    (by intro j
        constructor
        · intro hh; fin_cases hh <;> decide
        · intro hh
          have h3 : j < 3 := by simpa using hh
          interval_cases j <;> decide)
    (by intro i hi
        have h3 : i < 3 := by simpa using hi
        interval_cases i
        · exact ⟨VStr "Processed: a", rfl⟩
        · exact ⟨VStr "Processed: b", rfl⟩
        · exact ⟨VStr "Processed: c", rfl⟩)
  simpa using h


theorem analyze_run_nil (cancel : Nat → Bool) (s : SharedStore) (qv : Val)
    (hq : s.lookupVal "question" = some qv)
    (hsr : s.lookupVal "search_results" = none
      ∨ s.lookupVal "search_results" = some VNil) :
    analyzeNode.run cancel s = ⟨"search", s, none, 1, 1, 1, true⟩ := by
  rcases hsr with hsr | hsr <;>
    simp [Node.run, prepPhase, analyzeNode, SharedStore.get, hq, hsr, runExecLoop,
      mapGet, Val.isNil]

theorem analyze_run_found (cancel : Nat → Bool) (s : SharedStore) (qv w : Val)
    (hq : s.lookupVal "question" = some qv)
    (hsr : s.lookupVal "search_results" = some w)
    (hw : w.isNil = false) :
    analyzeNode.run cancel s = ⟨"process", s, none, 1, 1, 1, true⟩ := by
  simp [Node.run, prepPhase, analyzeNode, SharedStore.get, hq, hsr, hw, runExecLoop,
    mapGet]

theorem search_run_str (cancel : Nat → Bool) (s : SharedStore) (q : String)
    (hq : s.lookupVal "question" = some (VStr q)) :
    searchNode.run cancel s
      = ⟨"analyze", s.set "search_results" (VStr ("Mock search results for: " ++ q)),
          none, 1, 1, 1, true⟩ := by
  simp [Node.run, prepPhase, searchNode, SharedStore.get, hq, runExecLoop]

theorem process_run (cancel : Nat → Bool) (s : SharedStore) :
    processNode.run cancel s
      = ⟨DefaultAction, s.set "context" (VStr "Processed information from search results"),
          none, 1, 1, 1, true⟩ := by
  simp [Node.run, prepPhase, processNode, runExecLoop]

theorem answer_run_str (apiKey : Bool) (cancel : Nat → Bool) (s : SharedStore) (q : String)
    (hq : s.lookupVal "question" = some (VStr q)) :
    (answerNode apiKey).run cancel s
      = if apiKey
        then ⟨DefaultAction, s.set "answer" (VStr ("This is a placeholder answer for: " ++ q)),
            none, 1, 1, 1, true⟩
        else ⟨"", s, some (.user "OPENAI_API_KEY not set"), 1, 1, 0, false⟩ := by
  cases apiKey <;>
    simp [Node.run, prepPhase, answerNode, SharedStore.get, hq, runExecLoop, mapGet]


theorem agent_flow_run_nil (apiKey : Bool) (cancel : Nat → Bool) (s : SharedStore)
    (q : String)
    (hq : s.lookupVal "question" = some (VStr q))
    (hsr : s.lookupVal "search_results" = none
      ∨ s.lookupVal "search_results" = some VNil) :
    (agentFlow apiKey).run cancel 5 s
      = some (["analyze", "search", "analyze", "process", "answer"],
          cond apiKey
            (((s.set "search_results" (VStr ("Mock search results for: " ++ q))).set
              "context" (VStr "Processed information from search results")).set
              "answer" (VStr ("This is a placeholder answer for: " ++ q)))
            ((s.set "search_results" (VStr ("Mock search results for: " ++ q))).set
              "context" (VStr "Processed information from search results")),
          cond apiKey none (some (.user "OPENAI_API_KEY not set"))) := by
  have hne1 : ("search_results" : String) ≠ "question" := by decide
  have hne2 : ("context" : String) ≠ "question" := by decide
  have h1 := analyze_run_nil cancel s (VStr q) hq hsr
  have h2 := search_run_str cancel s q hq
  have hq1 : (s.set "search_results" (VStr ("Mock search results for: " ++ q))).lookupVal
      "question" = some (VStr q) := by
    rw [lookupVal_set_of_ne _ _ _ _ hne1, hq]
  have h3 := analyze_run_found cancel
    (s.set "search_results" (VStr ("Mock search results for: " ++ q))) (VStr q)
    (VStr ("Mock search results for: " ++ q)) hq1 (lookupVal_set_self _ _ _) rfl
  have h4 := process_run cancel
    (s.set "search_results" (VStr ("Mock search results for: " ++ q)))
  have hq2 : ((s.set "search_results" (VStr ("Mock search results for: " ++ q))).set
      "context" (VStr "Processed information from search results")).lookupVal "question"
      = some (VStr q) := by
    rw [lookupVal_set_of_ne _ _ _ _ hne2, hq1]
  have h5 := answer_run_str apiKey cancel
    ((s.set "search_results" (VStr ("Mock search results for: " ++ q))).set
      "context" (VStr "Processed information from search results")) q hq2
  cases apiKey with
  | true =>
    rw [if_pos rfl] at h5
    have hstart : (agentFlow true).start = "analyze" := rfl
    have hn1 : (agentFlow true).nodes "analyze" = analyzeNode := rfl
    have hn2 : (agentFlow true).nodes "search" = searchNode := rfl
    have hn3 : (agentFlow true).nodes "process" = processNode := rfl
    have hn4 : (agentFlow true).nodes "answer" = answerNode true := rfl
    have hr1 : resolveNext (agentFlow true) "analyze" "search" = some "search" := rfl
    have hr2 : resolveNext (agentFlow true) "search" "analyze" = some "analyze" := rfl
    have hr3 : resolveNext (agentFlow true) "analyze" "process" = some "process" := rfl
    have hr4 : resolveNext (agentFlow true) "process" DefaultAction = some "answer" := rfl
    have hr5 : resolveNext (agentFlow true) "answer" DefaultAction = none := rfl
    simp only [Flow.run, Flow.runFuel, hstart, hn1, hn2, hn3, hn4, h1, h2, h3, h4, h5,
      hr1, hr2, hr3, hr4, hr5, Bool.cond_true]
  | false =>
    rw [if_neg (by simp)] at h5
    have hstart : (agentFlow false).start = "analyze" := rfl
    have hn1 : (agentFlow false).nodes "analyze" = analyzeNode := rfl
    have hn2 : (agentFlow false).nodes "search" = searchNode := rfl
    have hn3 : (agentFlow false).nodes "process" = processNode := rfl
    have hn4 : (agentFlow false).nodes "answer" = answerNode false := rfl
    have hr1 : resolveNext (agentFlow false) "analyze" "search" = some "search" := rfl
    have hr2 : resolveNext (agentFlow false) "search" "analyze" = some "analyze" := rfl
    have hr3 : resolveNext (agentFlow false) "analyze" "process" = some "process" := rfl
    have hr4 : resolveNext (agentFlow false) "process" DefaultAction = some "answer" := rfl
    simp only [Flow.run, Flow.runFuel, hstart, hn1, hn2, hn3, hn4, h1, h2, h3, h4, h5,
      hr1, hr2, hr3, hr4, Bool.cond_false]

theorem agent_flow_run_found (apiKey : Bool) (cancel : Nat → Bool) (s : SharedStore)
    (q : String) (w : Val)
    (hq : s.lookupVal "question" = some (VStr q))
    (hsr : s.lookupVal "search_results" = some w)
    (hw : w.isNil = false) :
    (agentFlow apiKey).run cancel 5 s
      = some (["analyze", "process", "answer"],
          cond apiKey
            ((s.set "context" (VStr "Processed information from search results")).set
              "answer" (VStr ("This is a placeholder answer for: " ++ q)))
            (s.set "context" (VStr "Processed information from search results")),
          cond apiKey none (some (.user "OPENAI_API_KEY not set"))) := by
  have hne2 : ("context" : String) ≠ "question" := by decide
  have h1 := analyze_run_found cancel s (VStr q) w hq hsr hw
  have h4 := process_run cancel s
  have hq2 : (s.set "context"
        (VStr "Processed information from search results")).lookupVal "question"
      = some (VStr q) := by
    rw [lookupVal_set_of_ne _ _ _ _ hne2, hq]
  have h5 := answer_run_str apiKey cancel
    (s.set "context" (VStr "Processed information from search results")) q hq2
  cases apiKey with
  | true =>
    rw [if_pos rfl] at h5
    have hstart : (agentFlow true).start = "analyze" := rfl
    have hn1 : (agentFlow true).nodes "analyze" = analyzeNode := rfl
    have hn3 : (agentFlow true).nodes "process" = processNode := rfl
    have hn4 : (agentFlow true).nodes "answer" = answerNode true := rfl
    have hr3 : resolveNext (agentFlow true) "analyze" "process" = some "process" := rfl
    have hr4 : resolveNext (agentFlow true) "process" DefaultAction = some "answer" := rfl
    have hr5 : resolveNext (agentFlow true) "answer" DefaultAction = none := rfl
    simp only [Flow.run, Flow.runFuel, hstart, hn1, hn3, hn4, h1, h4, h5,
      hr3, hr4, hr5, Bool.cond_true]
  | false =>
    rw [if_neg (by simp)] at h5
    have hstart : (agentFlow false).start = "analyze" := rfl
    have hn1 : (agentFlow false).nodes "analyze" = analyzeNode := rfl
    have hn3 : (agentFlow false).nodes "process" = processNode := rfl
    have hn4 : (agentFlow false).nodes "answer" = answerNode false := rfl
    have hr3 : resolveNext (agentFlow false) "analyze" "process" = some "process" := rfl
    have hr4 : resolveNext (agentFlow false) "process" DefaultAction = some "answer" := rfl
    simp only [Flow.run, Flow.runFuel, hstart, hn1, hn3, hn4, h1, h4, h5,
      hr3, hr4, Bool.cond_false]

/-- C9 counterexample: a SharedStore that contains the "question" key, bound
to the nil value, makes the search node Exec fail, so the flow aborts with
an error after two node executions and never routes through ProcessNode to
AnswerNode, refuting the claim for this store. -/
theorem agent_flow_nil_question_aborts :
    (agentFlow true).run (fun _ => false) 5 [("question", VNil)]
      = some (["analyze", "search"], [("question", VNil)],
          some (.user "no question to search for")) := rfl

/-- C9 (amended): in the agent flow, for every run from a SharedStore whose
"question" key holds a string, the search node executes at most once, the
run halts within five node executions ending at the answer node and passing
through the process node, and when the API key is present it terminates
with no error; moreover AnalyzeNode Exec returns "search" exactly when the
prep map search_results entry is nil (absent or nil in the store), and
SearchNode Post always stores its Exec result (always a non-nil string)
under "search_results" and returns the action "analyze". -/
theorem agent_flow_terminates (apiKey : Bool) (cancel : Nat → Bool)
    (s : SharedStore) (q : String)
    (hq : s.lookupVal "question" = some (VStr q)) :
    (∃ tr s2 err2,
      (agentFlow apiKey).run cancel 5 s = some (tr, s2, err2)
      ∧ tr.count "search" ≤ 1
      ∧ tr.length ≤ 5
      ∧ tr.getLast? = some "answer"
      ∧ "process" ∈ tr
      ∧ (apiKey = true → err2 = none))
    ∧ (∀ fields, analyzeNode.exec 0 (VMap fields) = .ok (VStr "search")
        ↔ (mapGet fields "search_results").isNil = true)
    ∧ (∀ (s3 : SharedStore) (pv ev : Val)
        (qf : SharedStore → Val → Val → (Except Err Action) × SharedStore),
        searchNode.post = some qf →
        qf s3 pv ev = (.ok "analyze", s3.set "search_results" ev))
    ∧ (∀ (i : Nat) (pv v : Val), searchNode.exec i pv = .ok v → v.isNil = false) := by
  refine ⟨?_, ?_, ?_, ?_⟩
  · rcases hsr : s.lookupVal "search_results" with _ | w
    · refine ⟨["analyze", "search", "analyze", "process", "answer"], _, _,
        agent_flow_run_nil apiKey cancel s q hq (Or.inl hsr), ?_, ?_, ?_, ?_, ?_⟩
      · decide
      · decide
      · decide
      · decide
      · intro hk
        subst hk
        rfl
    · cases hw : w.isNil with
      | true =>
        have hwn : w = VNil := by cases w <;> simp [Val.isNil] at hw ⊢
        subst hwn
        refine ⟨["analyze", "search", "analyze", "process", "answer"], _, _,
          agent_flow_run_nil apiKey cancel s q hq (Or.inr hsr), ?_, ?_, ?_, ?_, ?_⟩
        · decide
        · decide
        · decide
        · decide
        · intro hk
          subst hk
          rfl
      | false =>
        refine ⟨["analyze", "process", "answer"], _, _,
          agent_flow_run_found apiKey cancel s q w hq hsr hw, ?_, ?_, ?_, ?_, ?_⟩
        · decide
        · decide
        · decide
        · decide
        · intro hk
          subst hk
          rfl
  · intro fields
    cases hc : (mapGet fields "search_results").isNil <;>
      simp [analyzeNode, hc]
  · intro s3 pv ev qf hqf
    simp only [searchNode] at hqf
    injection hqf with hqf
    subst hqf
    rfl
  · intro i pv v h
    cases pv with
    | VNil => simp [searchNode] at h
    | VStr qs =>
      simp only [searchNode] at h
      injection h with h
      subst h
      rfl
    | VInt n => simp [searchNode] at h
    | VList xs => simp [searchNode] at h
    | VMap fs => simp [searchNode] at h

/-- Closed witness for the amended C9 at a concrete one-entry store. -/
theorem agent_flow_terminates_witness :
    (∃ tr s2 err2,
      (agentFlow true).run (fun _ => false) 5 [("question", VStr "hi")]
        = some (tr, s2, err2)
      ∧ tr.count "search" ≤ 1
      ∧ tr.length ≤ 5
      ∧ tr.getLast? = some "answer"
      ∧ "process" ∈ tr
      ∧ (true = true → err2 = none))
    ∧ (∀ fields, analyzeNode.exec 0 (VMap fields) = .ok (VStr "search")
        ↔ (mapGet fields "search_results").isNil = true)
    ∧ (∀ (s3 : SharedStore) (pv ev : Val)
        (qf : SharedStore → Val → Val → (Except Err Action) × SharedStore),
        searchNode.post = some qf →
        qf s3 pv ev = (.ok "analyze", s3.set "search_results" ev))
    ∧ (∀ (i : Nat) (pv v : Val), searchNode.exec i pv = .ok v → v.isNil = false) :=
  agent_flow_terminates true (fun _ => false) [("question", VStr "hi")] "hi" rfl

end Flyt
